import Mathlib

/-!
Verification of the request/response normalization pipeline of the
lead-and-post scraping application (single source file `app.py`).

The development shallowly embeds the pure computational content of the
source into Lean:

* `Json` models Python values produced by `json.loads` and by the remote
  services (dictionaries, lists, strings, integers, booleans, `None`).
  JSON numbers are modeled as integers; floating-point literals are
  outside the model.
* Fallible Python expressions are embedded as `Except PyErr` values, so
  that "raises an exception" is observable as an `.error` result.
* `Json.parse` embeds `json.loads` (strict mode: control characters in
  strings rejected, standard escapes, integers without leading zeros).
* `generate_payload`, `run_linkedin_scraper`, `convert_to_dataframe` and
  `convert_instagram_to_dataframe` are embedded from the source, with the
  network responses passed in as explicit inputs.
* The CSV exporter embeds `DataFrame.to_csv(index=False)`: header row of
  the inferred columns followed by one line per row, minimal quoting.
  A standard CSV reader is embedded as `parseCsv` and proved to invert
  the renderer, which settles the round-trip claims.
-/

/-- Python/JSON values as a nested inductive. Numbers are modeled as
integers; the claims under verification do not involve floating point. -/
inductive Json where
  | null : Json
  | bool (b : Bool) : Json
  | num (n : Int) : Json
  | str (s : String) : Json
  | arr (elems : List Json) : Json
  | obj (fields : List (String × Json)) : Json

/-- Errors a pipeline step can raise, mirroring the Python exception that
the corresponding expression raises. `malformedQuery` stands for the JSON
decode failure of `json.loads` (the spec calls it `MalformedQueryError`);
`httpError` stands for `requests.HTTPError` raised by `raise_for_status`
(the spec calls it `UpstreamRequestError`). -/
inductive PyErr where
  | attributeError : PyErr
  | typeError : PyErr
  | indexError : PyErr
  | keyError (key : String) : PyErr
  | malformedQuery : PyErr
  | httpError (status : Nat) : PyErr
  deriving DecidableEq

/-- Dictionary lookup with Python semantics for duplicate keys coming out
of `json.loads`: the last binding of a key wins. -/
def lookupLast (fields : List (String × Json)) (k : String) : Option Json :=
  fields.foldl (fun acc kv => if kv.1 = k then some kv.2 else acc) none

/-- Key lookup on a value; `none` when the value is not a dictionary or
the key is absent. -/
def Json.lookup : Json → String → Option Json
  | .obj fields, k => lookupLast fields k
  | _, _ => none

/-- Python truthiness of a value (`bool(v)`): `None`, `False`, `0`, empty
string, empty list and empty dict are falsy, everything else truthy. -/
def Json.truthy : Json → Bool
  | .null => false
  | .bool b => b
  | .num n => n ≠ 0
  | .str s => s ≠ ""
  | .arr elems => !elems.isEmpty
  | .obj fields => !fields.isEmpty

/-- Python `a or b`: returns `a` when `a` is truthy, else `b`. -/
def pyOr (a b : Json) : Json := if a.truthy then a else b

/-- Python `d.get(k)`: `None` when the key is absent; raises
`AttributeError` when the receiver is not a dictionary. -/
def pyGetMethod (j : Json) (k : String) : Except PyErr Json :=
  match j with
  | .obj fields => .ok ((lookupLast fields k).getD Json.null)
  | _ => .error .attributeError

/-- Python `v[i]` with an integer index: list indexing (IndexError when
out of range), string indexing, `KeyError` on a dictionary whose keys are
strings, `TypeError` on non-subscriptable values. -/
def pyIndex (j : Json) (i : Nat) : Except PyErr Json :=
  match j with
  | .arr elems =>
      match elems.get? i with
      | some v => .ok v
      | none => .error .indexError
  | .str s =>
      match s.data.get? i with
      | some c => .ok (.str (String.mk [c]))
      | none => .error .indexError
  | .obj _ => .error (.keyError (toString i))
  | _ => .error .typeError

/-- Python `d[k]` with a string key: `KeyError` when absent, `TypeError`
when the receiver is not a dictionary. -/
def pySubscrKey (j : Json) (k : String) : Except PyErr Json :=
  match j with
  | .obj fields =>
      match lookupLast fields k with
      | some v => .ok v
      | none => .error (.keyError k)
  | _ => .error .typeError

/-! ## Embedding of `json.loads` -/

/-- Whitespace skipped by the JSON grammar. -/
def jsonWs (c : Char) : Bool := c = ' ' || c = '\t' || c = '\n' || c = '\r'

/-- Drop leading JSON whitespace. -/
def skipWs : List Char → List Char
  | [] => []
  | c :: cs => if jsonWs c then skipWs cs else c :: cs

/-- Value of one hexadecimal digit. -/
def hexVal (c : Char) : Option Nat :=
  if '0' ≤ c ∧ c ≤ '9' then some (c.toNat - 48)
  else if 'a' ≤ c ∧ c ≤ 'f' then some (c.toNat - 87)
  else if 'A' ≤ c ∧ c ≤ 'F' then some (c.toNat - 55)
  else none

/-- Translation of a single-character escape (everything except `\u`). -/
def escChar (e : Char) : Option Char :=
  if e = '\"' then some '\"'
  else if e = '\\' then some '\\'
  else if e = '/' then some '/'
  else if e = 'n' then some '\n'
  else if e = 't' then some '\t'
  else if e = 'r' then some '\r'
  else if e = 'b' then some (Char.ofNat 8)
  else if e = 'f' then some (Char.ofNat 12)
  else none

/-- Body of a JSON string after the opening quote: returns the decoded
characters and the input remaining after the closing quote. Strict mode
of `json.loads`: raw control characters are rejected. -/
def parseStringBody : List Char → Option (List Char × List Char)
  | [] => none
  | c :: cs =>
    if c = '\"' then some ([], cs)
    else if c = '\\' then
      match cs with
      | [] => none
      | e :: cs2 =>
        if e = 'u' then
          match cs2 with
          | h1 :: h2 :: h3 :: h4 :: cs3 =>
            match hexVal h1, hexVal h2, hexVal h3, hexVal h4 with
            | some a, some b, some c3, some d =>
                match parseStringBody cs3 with
                | some (body, rest) =>
                    some (Char.ofNat (4096 * a + 256 * b + 16 * c3 + d) :: body, rest)
                | none => none
            | _, _, _, _ => none
          | _ => none
        else
          match escChar e with
          | some ec =>
              match parseStringBody cs2 with
              | some (body, rest) => some (ec :: body, rest)
              | none => none
          | none => none
    else if c.toNat < 32 then none
    else
      match parseStringBody cs with
      | some (body, rest) => some (c :: body, rest)
      | none => none

/-- Longest prefix of decimal digits. -/
def takeDigits : List Char → List Char × List Char
  | [] => ([], [])
  | c :: cs =>
    if c.isDigit then
      let (ds, rest) := takeDigits cs
      (c :: ds, rest)
    else ([], c :: cs)

/-- Numeric value of a digit string. -/
def digitsVal (ds : List Char) : Nat :=
  ds.foldl (fun a c => 10 * a + (c.toNat - 48)) 0

/-- JSON integer literal: optional minus sign, digits, no leading zeros.
A literal continuing with a fraction or exponent is a float and lies
outside the model, so it is rejected here. -/
def parseIntLit (cs : List Char) : Option (Int × List Char) :=
  let (neg, cs1) :=
    match cs with
    | '-' :: rest => (true, rest)
    | _ => (false, cs)
  match takeDigits cs1 with
  | ([], _) => none
  | (d :: ds, rest) =>
    if d = '0' ∧ ds ≠ [] then none
    else
      match rest with
      | '.' :: _ => none
      | 'e' :: _ => none
      | 'E' :: _ => none
      | _ =>
        let v : Int := Int.ofNat (digitsVal (d :: ds))
        some (if neg then -v else v, rest)

mutual

/-- Fueled recursive-descent parse of one JSON value; returns the value
and the unconsumed input. -/
def parseValueAux : Nat → List Char → Option (Json × List Char)
  | 0, _ => none
  | fuel + 1, cs =>
    match skipWs cs with
    | [] => none
    | c :: rest =>
      if c = '\"' then
        match parseStringBody rest with
        | some (body, r) => some (.str (String.mk body), r)
        | none => none
      else if c = '\x7b' then
        match skipWs rest with
        | '\x7d' :: r => some (.obj [], r)
        | other => parseMembersAux fuel other
      else if c = '[' then
        match skipWs rest with
        | ']' :: r => some (.arr [], r)
        | other =>
            match parseElemsAux fuel other with
            | some (elems, r) => some (.arr elems, r)
            | none => none
      else
        match c :: rest with
        | 't' :: 'r' :: 'u' :: 'e' :: r => some (.bool true, r)
        | 'f' :: 'a' :: 'l' :: 's' :: 'e' :: r => some (.bool false, r)
        | 'n' :: 'u' :: 'l' :: 'l' :: r => some (.null, r)
        | other =>
            match parseIntLit other with
            | some (n, r) => some (.num n, r)
            | none => none

/-- Fueled parse of the members of a non-empty JSON object, starting at
the first key; consumes the closing brace. -/
def parseMembersAux : Nat → List Char → Option (Json × List Char)
  | 0, _ => none
  | fuel + 1, cs =>
    match skipWs cs with
    | '\"' :: rest =>
      match parseStringBody rest with
      | some (key, r1) =>
        match skipWs r1 with
        | ':' :: r2 =>
          match parseValueAux fuel r2 with
          | some (v, r3) =>
            match skipWs r3 with
            | ',' :: r4 =>
                match parseMembersAux fuel r4 with
                | some (.obj fields, r5) => some (.obj ((String.mk key, v) :: fields), r5)
                | _ => none
            | '\x7d' :: r4 => some (.obj [(String.mk key, v)], r4)
            | _ => none
          | none => none
        | _ => none
      | none => none
    | _ => none

/-- Fueled parse of the elements of a non-empty JSON array, starting at
the first element; consumes the closing bracket. -/
def parseElemsAux : Nat → List Char → Option (List Json × List Char)
  | 0, _ => none
  | fuel + 1, cs =>
    match parseValueAux fuel cs with
    | some (v, r1) =>
      match skipWs r1 with
      | ',' :: r2 =>
          match parseElemsAux fuel r2 with
          | some (elems, r3) => some (v :: elems, r3)
          | none => none
      | ']' :: r2 => some ([v], r2)
      | _ => none
    | none => none

end

/-- Embedding of `json.loads`: parse one JSON document and require that
only whitespace follows it. -/
def Json.parse (s : String) : Option Json :=
  match parseValueAux (s.length + 1) s.data with
  | some (v, rest) =>
      match skipWs rest with
      | [] => some v
      | _ => none
  | none => none


/-! ## Query Synthesizer (`generate_payload`)

The network round trip to the language model is an external collaborator;
its response text is the explicit input. The source strips the text and
passes it to `json.loads`, returning the parsed value. -/

/-- Whitespace stripped by Python `str.strip()`: space, tab, newline,
carriage return, vertical tab, form feed. -/
def pyWs (c : Char) : Bool :=
  c = ' ' || c = '\t' || c = '\n' || c = '\r' ||
  c = Char.ofNat 11 || c = Char.ofNat 12

/-- Drop leading Python whitespace. -/
def dropWhileWs : List Char → List Char
  | [] => []
  | c :: cs => if pyWs c then dropWhileWs cs else c :: cs

/-- Embedding of Python `content.strip()`. -/
def pyStrip (s : String) : String :=
  String.mk ((dropWhileWs ((dropWhileWs s.data).reverse)).reverse)

/-- Embedding of `generate_payload` applied to a model response text:
`json.loads(content.strip())`. -/
def generate_payload (content : String) : Except PyErr Json :=
  match Json.parse (pyStrip content) with
  | some j => .ok j
  | none => .error .malformedQuery

/-- The five fields the spec requires of a synthesized query. -/
def requiredQueryKeys : List String :=
  ["search", "location", "maxResults", "jobTitles", "industry"]

/-- Whether a parsed value carries all five required query fields. -/
def hasRequiredKeys (j : Json) : Bool :=
  requiredQueryKeys.all (fun k => (j.lookup k).isSome)

/-! ## Record Fetcher (`run_linkedin_scraper`)

The HTTP exchange is external; the response (status and body text) is an
explicit input. The request body construction and the
`raise_for_status` / `response.json()` behavior are embedded from the
source (and, for `raise_for_status`, from the requests library: it raises
exactly for status codes in [400, 600)). -/

/-- An HTTP response as seen by the fetcher: status code and body text. -/
structure HttpResponse where
  status : Nat
  body : String

/-- Embedding of the request-body dictionary literal of
`run_linkedin_scraper`, with the payload subscripts evaluated in source
order (`jobTitles`, `maxResults`, then `search`). -/
def buildBody (payload : Json) : Except PyErr (List (String × Json)) := do
  let jt ← pySubscrKey payload "jobTitles"
  let mi ← pySubscrKey payload "maxResults"
  let sq ← pySubscrKey payload "search"
  .ok [("currentJobTitles", jt),
       ("maxItems", mi),
       ("profileScraperMode", Json.str "Full + email search"),
       ("recentlyChangedJobs", Json.bool false),
       ("searchQuery", sq),
       ("startPage", Json.num 1)]

/-- Embedding of `response.raise_for_status()`: raises `HTTPError`
exactly for client errors (400-499) and server errors (500-599). -/
def raiseForStatus (status : Nat) : Except PyErr Unit :=
  if 400 ≤ status ∧ status < 600 then .error (.httpError status) else .ok ()

/-- Embedding of `response.json()`. -/
def responseJson (body : String) : Except PyErr Json :=
  match Json.parse body with
  | some j => .ok j
  | none => .error .malformedQuery

/-- Embedding of `run_linkedin_scraper`: build the request body, then
check the response status, then parse the response body. -/
def run_linkedin_scraper (payload : Json) (response : HttpResponse) :
    Except PyErr Json := do
  let _ ← buildBody payload
  let _ ← raiseForStatus response.status
  responseJson response.body

/-! ## Record Normalizer

`convert_to_dataframe` (Leads) and `convert_instagram_to_dataframe`
(Posts) build one dictionary per input record. Each dictionary value is
embedded as the Python expression it comes from, evaluated in the source
order of the dictionary literal. -/

/-- Embedding of `(profile.get("emails") or [\x7b\x7d])[0].get("email")`. -/
def emailField (profile : Json) : Except PyErr Json := do
  let e ← pyGetMethod profile "emails"
  let f ← pyIndex (pyOr e (Json.arr [Json.obj []])) 0
  pyGetMethod f "email"

/-- Embedding of
`(profile.get("companyWebsites") or [\x7b\x7d])[0].get("url")`. -/
def websiteField (profile : Json) : Except PyErr Json := do
  let w ← pyGetMethod profile "companyWebsites"
  let f ← pyIndex (pyOr w (Json.arr [Json.obj []])) 0
  pyGetMethod f "url"

/-- Embedding of
`(profile.get("location") or \x7b\x7d).get("linkedinText")`. -/
def locationField (profile : Json) : Except PyErr Json := do
  let l ← pyGetMethod profile "location"
  pyGetMethod (pyOr l (Json.obj [])) "linkedinText"

/-- The fixed Leads column list, in source order. -/
def leadCols : List String :=
  ["Profile URL", "First Name", "Last Name", "Email", "Headline",
   "Company Website", "Location", "Followers", "Connections Count"]

/-- The dictionary built for one Leads record, values evaluated in the
source order of the literal. -/
def leadRow (profile : Json) : Except PyErr (List (String × Json)) := do
  let purl ← pyGetMethod profile "linkedinUrl"
  let fn ← pyGetMethod profile "firstName"
  let ln ← pyGetMethod profile "lastName"
  let em ← emailField profile
  let hl ← pyGetMethod profile "headline"
  let cw ← websiteField profile
  let loc ← locationField profile
  let fc ← pyGetMethod profile "followerCount"
  let cc ← pyGetMethod profile "connectionsCount"
  .ok [("Profile URL", purl), ("First Name", fn), ("Last Name", ln),
       ("Email", em), ("Headline", hl), ("Company Website", cw),
       ("Location", loc), ("Followers", fc), ("Connections Count", cc)]

/-- Embedding of `convert_to_dataframe`: the loop appends one row per
profile; an exception inside the loop aborts the whole call. -/
def convert_to_dataframe : List Json → Except PyErr (List (List (String × Json)))
  | [] => .ok []
  | p :: rest => do
      let r ← leadRow p
      let rs ← convert_to_dataframe rest
      .ok (r :: rs)

/-- The fixed Posts column list, in source order. -/
def instaCols : List String :=
  ["Post URL", "Caption", "Likes", "Comments", "Posted At", "Is Video",
   "Thumbnail", "Username"]

/-- The dictionary built for one Posts record. Every value is a chain of
`post.get(...)` joined by Python `or`; the gets are side-effect free, and
when `post` is not a dictionary the first one raises, so evaluating all
gets first and then folding with `pyOr` is exact. -/
def instagramRow (post : Json) : Except PyErr (List (String × Json)) := do
  let pu1 ← pyGetMethod post "postUrl"
  let pu2 ← pyGetMethod post "url"
  let pu3 ← pyGetMethod post "permalink"
  let ca1 ← pyGetMethod post "caption"
  let ca2 ← pyGetMethod post "text"
  let li1 ← pyGetMethod post "likesCount"
  let li2 ← pyGetMethod post "likes"
  let co1 ← pyGetMethod post "commentsCount"
  let co2 ← pyGetMethod post "comments"
  let ts1 ← pyGetMethod post "timestamp"
  let ts2 ← pyGetMethod post "takenAt"
  let iv ← pyGetMethod post "isVideo"
  let th1 ← pyGetMethod post "displayUrl"
  let th2 ← pyGetMethod post "thumbnailUrl"
  let un1 ← pyGetMethod post "ownerUsername"
  let un2 ← pyGetMethod post "username"
  .ok [("Post URL", pyOr (pyOr pu1 pu2) pu3),
       ("Caption", pyOr ca1 ca2),
       ("Likes", pyOr li1 li2),
       ("Comments", pyOr co1 co2),
       ("Posted At", pyOr ts1 ts2),
       ("Is Video", iv),
       ("Thumbnail", pyOr th1 th2),
       ("Username", pyOr un1 un2)]

/-- Embedding of `convert_instagram_to_dataframe`. -/
def convert_instagram_to_dataframe :
    List Json → Except PyErr (List (List (String × Json)))
  | [] => .ok []
  | p :: rest => do
      let r ← instagramRow p
      let rs ← convert_instagram_to_dataframe rest
      .ok (r :: rs)

/-! ## Tabular Exporter (`df.to_csv(index=False)`)

`pd.DataFrame(rows)` infers its columns from the dictionary keys in
order of first appearance across the rows (an empty row list yields no
columns). `to_csv(index=False)` writes the header line followed by one
line per row, with minimal quoting (a field is quoted when it contains a
separator, a quote or a line break; quotes are doubled) and missing
values rendered as the empty string. Cells are stringified value-wise;
the column-level numeric dtype promotion pandas performs (integer
columns containing missing values print as floats) is abstracted, which
only affects the stringified spelling of such numbers. -/

/-- First-occurrence lookup in one row (Python dictionaries built by the
normalizer have distinct keys). -/
def rowGet (row : List (String × Json)) (k : String) : Option Json :=
  match row with
  | [] => none
  | kv :: rest => if kv.1 = k then some kv.2 else rowGet rest k

/-- The keys of a row, in insertion order. -/
def rowKeys (row : List (String × Json)) : List String := row.map Prod.fst

/-- Column inference of `pd.DataFrame(list_of_dicts)`: keys in order of
first appearance. -/
def dfColumns (rows : List (List (String × Json))) : List String :=
  rows.foldl (fun acc row => acc ++ (rowKeys row).filter (fun k => !acc.contains k)) []

/-- The Python single-quote character used by `repr`. -/
def pyQuote : String := String.mk [Char.ofNat 39]

mutual

/-- Python `repr` of a value as pandas prints container cells (string
escaping inside `repr` is abstracted to plain quoting). -/
def reprPy : Json → String
  | .null => "None"
  | .bool true => "True"
  | .bool false => "False"
  | .num n => toString n
  | .str s => pyQuote ++ s ++ pyQuote
  | .arr elems => "[" ++ reprPyList elems ++ "]"
  | .obj fields => "\x7b" ++ reprPyFields fields ++ "\x7d"

/-- Comma-separated `repr` of list elements. -/
def reprPyList : List Json → String
  | [] => ""
  | [x] => reprPy x
  | x :: xs => reprPy x ++ ", " ++ reprPyList xs

/-- Comma-separated `repr` of dictionary items. -/
def reprPyFields : List (String × Json) → String
  | [] => ""
  | [kv] => pyQuote ++ kv.1 ++ pyQuote ++ ": " ++ reprPy kv.2
  | kv :: xs => pyQuote ++ kv.1 ++ pyQuote ++ ": " ++ reprPy kv.2 ++ ", " ++ reprPyFields xs

end

/-- Stringification of one cell by `to_csv`: missing values become the
empty string, booleans print capitalized, numbers in decimal, strings
verbatim, containers through `repr`. -/
def cellStr : Json → String
  | .null => ""
  | .bool true => "True"
  | .bool false => "False"
  | .num n => toString n
  | .str s => s
  | .arr elems => reprPy (.arr elems)
  | .obj fields => reprPy (.obj fields)

/-- The stringified cell of a row under one column header. -/
def cellOf (row : List (String × Json)) (k : String) : String :=
  match rowGet row k with
  | some v => cellStr v
  | none => ""

/-- Whether minimal quoting must quote a field. -/
def needsQuote (s : String) : Bool :=
  s.data.any (fun c => c = ',' || c = '\"' || c = '\n' || c = '\r')

/-- Double every quote character. -/
def escQuotes : List Char → List Char
  | [] => []
  | c :: cs => if c = '\"' then '\"' :: '\"' :: escQuotes cs else c :: escQuotes cs

/-- One CSV field under minimal quoting. -/
def renderFieldChars (s : String) : List Char :=
  if needsQuote s then '\"' :: (escQuotes s.data ++ ['\"']) else s.data

/-- One CSV line without its terminator: fields joined by commas. -/
def renderRowChars : List String → List Char
  | [] => []
  | [f] => renderFieldChars f
  | f :: fs => renderFieldChars f ++ ',' :: renderRowChars fs

/-- A full CSV document: one line per row, each closed by a newline. -/
def renderCsvChars : List (List String) → List Char
  | [] => []
  | r :: rs => renderRowChars r ++ '\n' :: renderCsvChars rs

/-- CSV text of a list of rows. -/
def renderCsv (rows : List (List String)) : String :=
  String.mk (renderCsvChars rows)

/-- Embedding of the CSV export: infer the DataFrame columns, write the
header line, then one line per row with stringified cells. -/
def toCsv (rows : List (List (String × Json))) : String :=
  let cols := dfColumns rows
  renderCsv (cols :: rows.map (fun r => cols.map (cellOf r)))

/-! ### A standard CSV reader -/

/-- Body of a quoted CSV field after the opening quote; a doubled quote
is an escaped quote, a single quote closes the field. -/
def csvQuotedBody : List Char → Option (List Char × List Char)
  | [] => none
  | c :: cs =>
    if c = '\"' then
      match cs with
      | [] => some ([], [])
      | c2 :: cs2 =>
        if c2 = '\"' then
          match csvQuotedBody cs2 with
          | some (b, r) => some ('\"' :: b, r)
          | none => none
        else some ([], cs)
    else
      match csvQuotedBody cs with
      | some (b, r) => some (c :: b, r)
      | none => none

/-- An unquoted CSV field: everything up to the next comma or newline. -/
def csvUnquoted : List Char → List Char × List Char
  | [] => ([], [])
  | c :: cs =>
    if c = ',' || c = '\n' then ([], c :: cs)
    else
      let (f, r) := csvUnquoted cs
      (c :: f, r)

/-- One CSV field: quoted when it starts with a quote, unquoted else. -/
def csvField : List Char → Option (List Char × List Char)
  | c :: cs => if c = '\"' then csvQuotedBody cs else some (csvUnquoted (c :: cs))
  | [] => some ([], [])

/-- One CSV record: fields separated by commas, closed by a newline or
the end of input. -/
def csvRecordAux : Nat → List Char → Option (List String × List Char)
  | 0, _ => none
  | fuel + 1, cs =>
    match csvField cs with
    | none => none
    | some (f, rest) =>
      match rest with
      | ',' :: r2 =>
          match csvRecordAux fuel r2 with
          | some (fs, r) => some (String.mk f :: fs, r)
          | none => none
      | '\n' :: r2 => some ([String.mk f], r2)
      | [] => some ([String.mk f], [])
      | _ => none

/-- All CSV records of a document. -/
def csvRowsAux : Nat → List Char → Option (List (List String))
  | 0, _ => none
  | fuel + 1, cs =>
      match cs with
      | [] => some []
      | c :: cs2 =>
          match csvRecordAux (fuel + 1) (c :: cs2) with
          | some (r, rest) =>
              match csvRowsAux fuel rest with
              | some rs => some (r :: rs)
              | none => none
          | none => none

/-- A standard CSV reader over a whole document. -/
def parseCsv (s : String) : Option (List (List String)) :=
  csvRowsAux (s.length + 1) s.data


/-! ## Helper definitions for the statements -/

/-- The value `d.get(k)` yields on a dictionary: the stored value, or
`None` when the key is absent. -/
def pyGetD (fields : List (String × Json)) (k : String) : Json :=
  (lookupLast fields k).getD Json.null

/-- First truthy value of a chain, else the last value of the chain
(`None` for an empty chain): the value of `a or b or ...` in Python. -/
def firstTruthy : List Json → Json
  | [] => Json.null
  | [v] => v
  | v :: vs => if v.truthy then v else firstTruthy vs

/-- A fully populated synthesized payload, as in the end-to-end scenario
of the spec. -/
def samplePayload : Json :=
  Json.obj [("search", Json.str "SaaS founders"),
    ("location", Json.str "United Kingdom"),
    ("maxResults", Json.num 50),
    ("jobTitles", Json.arr [Json.str "Founder", Json.str "Co-Founder", Json.str "CEO"]),
    ("industry", Json.str "SaaS")]

/-- The Leads row produced for an empty record: every column `None`. -/
def nullLeadRow : List (String × Json) :=
  [("Profile URL", Json.null), ("First Name", Json.null),
   ("Last Name", Json.null), ("Email", Json.null),
   ("Headline", Json.null), ("Company Website", Json.null),
   ("Location", Json.null), ("Followers", Json.null),
   ("Connections Count", Json.null)]

/-- The first of the three payload keys read by the request-body literal
that is missing, in evaluation order. -/
def firstMissingKey (fs : List (String × Json)) : String :=
  if (lookupLast fs "jobTitles").isNone then "jobTitles"
  else if (lookupLast fs "maxResults").isNone then "maxResults"
  else "search"


/-! ### The reader inverts the renderer -/

theorem String.mk_data (s : String) : String.mk s.data = s := by
  cases s; rfl

theorem csvQuotedBody_esc (f : List Char) :
    ∀ rest : List Char, rest.head? ≠ some '\"' →
      csvQuotedBody (escQuotes f ++ '\"' :: rest) = some (f, rest) := by
  induction f with
  | nil =>
      intro rest hrest
      cases rest with
      | nil => simp [escQuotes, csvQuotedBody]
      | cons c2 cs2 =>
          have hc2 : ¬ c2 = '\"' := by
            intro h
            exact hrest (by simp [h])
          simp [escQuotes, csvQuotedBody, hc2]
  | cons c f ih =>
      intro rest hrest
      by_cases hc : c = '\"'
      · subst hc
        have hshape : escQuotes ('\"' :: f) ++ '\"' :: rest
            = '\"' :: '\"' :: (escQuotes f ++ '\"' :: rest) := by
          simp [escQuotes]
        rw [hshape]
        simp [csvQuotedBody, ih rest hrest]
      · have hshape : escQuotes (c :: f) ++ '\"' :: rest
            = c :: (escQuotes f ++ '\"' :: rest) := by
          simp [escQuotes, hc]
        rw [hshape, csvQuotedBody.eq_def]
        simp [hc, ih rest hrest]

theorem csvUnquoted_clean (f : List Char)
    (hf : ∀ c ∈ f, ¬(c = ',' || c = '\n') = true) :
    ∀ rest : List Char,
      (rest = [] ∨ ∃ c cs, rest = c :: cs ∧ (c = ',' || c = '\n') = true) →
      csvUnquoted (f ++ rest) = (f, rest) := by
  induction f with
  | nil =>
      intro rest hrest
      rcases hrest with rfl | ⟨c, cs, rfl, hc⟩
      · simp [csvUnquoted]
      · simp [csvUnquoted, hc]
  | cons c f ih =>
      intro rest hrest
      have hc : ¬(c = ',' || c = '\n') = true := hf c (by simp)
      have ihf : ∀ c ∈ f, ¬(c = ',' || c = '\n') = true := by
        intro x hx; exact hf x (by simp [hx])
      simp only [List.cons_append, csvUnquoted, if_neg hc, List.append_eq,
        ih ihf rest hrest]

theorem csvField_render (f : String) (rest : List Char)
    (hrest : rest = [] ∨ rest.head? = some ',' ∨ rest.head? = some '\n') :
    csvField (renderFieldChars f ++ rest) = some (f.data, rest) := by
  have hrest2 : rest = [] ∨ ∃ c cs, rest = c :: cs ∧ (c = ',' || c = '\n') = true := by
    rcases hrest with rfl | h | h
    · exact Or.inl rfl
    · cases rest with
      | nil => exact Or.inl rfl
      | cons c cs =>
          refine Or.inr ⟨c, cs, rfl, ?_⟩
          simp only [List.head?] at h
          simp [Option.some_inj.mp h]
    · cases rest with
      | nil => exact Or.inl rfl
      | cons c cs =>
          refine Or.inr ⟨c, cs, rfl, ?_⟩
          simp only [List.head?] at h
          simp [Option.some_inj.mp h]
  by_cases hq : needsQuote f
  · have hhead : rest.head? ≠ some '\"' := by
      rcases hrest2 with rfl | ⟨c, cs, rfl, hc⟩
      · simp
      · simp only [List.head?, ne_eq, Option.some_inj]
        intro h
        subst h
        simp at hc
    simp only [renderFieldChars, if_pos hq]
    have : ('\"' :: (escQuotes f.data ++ ['\"'])) ++ rest
        = '\"' :: (escQuotes f.data ++ '\"' :: rest) := by
      simp
    rw [this]
    simp only [csvField, if_pos rfl]
    exact csvQuotedBody_esc f.data rest hhead
  · have hclean : ∀ c ∈ f.data, ¬(c = ',' || c = '\n') = true := by
      intro c hc hbad
      apply hq
      unfold needsQuote
      rw [List.any_eq_true]
      refine ⟨c, hc, ?_⟩
      rcases Bool.or_eq_true_iff.mp hbad with h | h <;> simp [h]
    have hnoq : ∀ c ∈ f.data, ¬ c = '\"' := by
      intro c hc hbad
      apply hq
      unfold needsQuote
      rw [List.any_eq_true]
      exact ⟨c, hc, by simp [hbad]⟩
    simp only [renderFieldChars, if_neg hq]
    cases hd : f.data with
    | nil =>
        simp only [List.nil_append]
        rcases hrest2 with rfl | ⟨c, cs, rfl, hc⟩
        · simp [csvField]
        · have hcq : ¬ c = '\"' := by
            intro h; subst h; simp at hc
          simp [csvField, hcq, csvUnquoted, hc]
    | cons c cs =>
        have hcq : ¬ c = '\"' := hnoq c (by simp [hd])
        simp only [List.cons_append, csvField, if_neg hcq]
        rw [← List.cons_append, ← hd]
        rw [csvUnquoted_clean f.data hclean rest hrest2]

theorem renderRowChars_two (f g : String) (gs : List String) :
    renderRowChars (f :: g :: gs) = renderFieldChars f ++ ',' :: renderRowChars (g :: gs) := rfl

theorem csvRecordAux_render (r : List String) :
    ∀ (fuel : Nat) (rest : List Char), r ≠ [] → r.length ≤ fuel →
      csvRecordAux fuel (renderRowChars r ++ '\n' :: rest) = some (r, rest) := by
  induction r with
  | nil => intro fuel rest h; exact absurd rfl h
  | cons f rs ih =>
      intro fuel rest _ hlen
      cases fuel with
      | zero => simp at hlen
      | succ fu =>
          cases rs with
          | nil =>
              have hf := csvField_render f ('\n' :: rest) (by simp)
              simp only [renderRowChars, csvRecordAux, hf, String.mk_data]
          | cons g gs =>
              rw [renderRowChars_two]
              have hassoc : (renderFieldChars f ++ ',' :: renderRowChars (g :: gs)) ++ '\n' :: rest
                  = renderFieldChars f ++ ',' :: (renderRowChars (g :: gs) ++ '\n' :: rest) := by
                simp
              rw [hassoc]
              have hf := csvField_render f (',' :: (renderRowChars (g :: gs) ++ '\n' :: rest)) (by simp)
              have hrec := ih fu rest (by simp) (by simpa using Nat.lt_succ_iff.mp (by simpa using hlen))
              simp only [csvRecordAux, hf, hrec, String.mk_data]

theorem renderRowChars_len (r : List String) (h : r ≠ []) :
    r.length ≤ (renderRowChars r).length + 1 := by
  induction r with
  | nil => exact absurd rfl h
  | cons f rs ih =>
      cases rs with
      | nil => simp [renderRowChars]
      | cons g gs =>
          have := ih (by simp)
          rw [renderRowChars_two]
          simp only [List.length_cons, List.length_append] at *
          omega

theorem renderCsvChars_len (rows : List (List String)) (h : ∀ r ∈ rows, r ≠ []) :
    (rows.map List.length).sum ≤ (renderCsvChars rows).length := by
  induction rows with
  | nil => simp [renderCsvChars]
  | cons r rs ih =>
      have hr := renderRowChars_len r (h r (by simp))
      have hrs := ih (fun x hx => h x (by simp [hx]))
      simp only [renderCsvChars, List.map_cons, List.sum_cons, List.length_append,
        List.length_cons]
      omega

theorem csvRowsAux_render (rows : List (List String)) :
    ∀ fuel : Nat, (∀ r ∈ rows, r ≠ []) →
      (rows.map List.length).sum + 1 ≤ fuel →
      csvRowsAux fuel (renderCsvChars rows) = some rows := by
  induction rows with
  | nil =>
      intro fuel _ hf
      cases fuel with
      | zero => simp at hf
      | succ fu => simp [renderCsvChars, csvRowsAux]
  | cons r rs ih =>
      intro fuel hne hf
      cases fuel with
      | zero => simp at hf
      | succ fu =>
          have hrne : r ≠ [] := hne r (by simp)
          have hrlen : 1 ≤ r.length := by
            cases r with
            | nil => exact absurd rfl hrne
            | cons a b => simp
          have hrec : csvRecordAux (fu + 1) (renderRowChars r ++ '\n' :: renderCsvChars rs)
              = some (r, renderCsvChars rs) := by
            apply csvRecordAux_render r (fu + 1) (renderCsvChars rs) hrne
            simp only [List.map_cons, List.sum_cons] at hf
            omega
          have hrest : csvRowsAux fu (renderCsvChars rs) = some rs := by
            apply ih fu (fun x hx => hne x (by simp [hx]))
            simp only [List.map_cons, List.sum_cons] at hf
            omega
          have hcons : ∃ c cs2, renderRowChars r ++ '\n' :: renderCsvChars rs = c :: cs2 := by
            cases hrr : renderRowChars r with
            | nil => exact ⟨'\n', renderCsvChars rs, by simp⟩
            | cons a b => exact ⟨a, b ++ '\n' :: renderCsvChars rs, by simp⟩
          obtain ⟨c, cs2, hc⟩ := hcons
          have hstep : renderCsvChars (r :: rs)
              = renderRowChars r ++ '\n' :: renderCsvChars rs := rfl
          rw [hstep, hc]
          simp only [csvRowsAux]
          rw [← hc]
          simp only [hrec, hrest]

theorem parseCsv_renderCsv (rows : List (List String)) (h : ∀ r ∈ rows, r ≠ []) :
    parseCsv (renderCsv rows) = some rows := by
  unfold parseCsv renderCsv
  have hdata : (String.mk (renderCsvChars rows)).data = renderCsvChars rows := rfl
  have hlen : (String.mk (renderCsvChars rows)).length = (renderCsvChars rows).length := rfl
  rw [hdata, hlen]
  apply csvRowsAux_render rows _ h
  have := renderCsvChars_len rows h
  omega

/-! ## Helper lemmas -/

theorem ok_bind {α β : Type} (a : α) (f : α → Except PyErr β) :
    (Except.ok a >>= f : Except PyErr β) = f a := rfl

theorem error_bind {α β : Type} (e : PyErr) (f : α → Except PyErr β) :
    (Except.error e >>= f : Except PyErr β) = .error e := rfl

theorem pyGetMethod_obj (fs : List (String × Json)) (k : String) :
    pyGetMethod (Json.obj fs) k = .ok (pyGetD fs k) := rfl

theorem pyOr2_firstTruthy (a b : Json) : pyOr a b = firstTruthy [a, b] := by
  simp [pyOr, firstTruthy]

theorem pyOr3_firstTruthy (a b c : Json) :
    pyOr (pyOr a b) c = firstTruthy [a, b, c] := by
  by_cases ha : a.truthy <;> by_cases hb : b.truthy <;>
    simp [pyOr, firstTruthy, ha, hb]

theorem leadRow_obj (fs : List (String × Json)) :
    leadRow (Json.obj fs) =
      emailField (Json.obj fs) >>= fun em =>
      websiteField (Json.obj fs) >>= fun cw =>
      locationField (Json.obj fs) >>= fun loc =>
      Except.ok [("Profile URL", pyGetD fs "linkedinUrl"),
        ("First Name", pyGetD fs "firstName"),
        ("Last Name", pyGetD fs "lastName"),
        ("Email", em),
        ("Headline", pyGetD fs "headline"),
        ("Company Website", cw),
        ("Location", loc),
        ("Followers", pyGetD fs "followerCount"),
        ("Connections Count", pyGetD fs "connectionsCount")] := by
  simp only [leadRow, pyGetMethod_obj, ok_bind]

theorem leadRow_not_obj (j : Json) (h : ∀ fs, j ≠ Json.obj fs) :
    leadRow j = .error .attributeError := by
  cases j with
  | obj fs => exact absurd rfl (h fs)
  | null => simp [leadRow, pyGetMethod, error_bind]
  | bool b => simp [leadRow, pyGetMethod, error_bind]
  | num n => simp [leadRow, pyGetMethod, error_bind]
  | str s => simp [leadRow, pyGetMethod, error_bind]
  | arr elems => simp [leadRow, pyGetMethod, error_bind]

theorem instagramRow_obj (fs : List (String × Json)) :
    instagramRow (Json.obj fs) =
      .ok [("Post URL", pyOr (pyOr (pyGetD fs "postUrl") (pyGetD fs "url")) (pyGetD fs "permalink")),
           ("Caption", pyOr (pyGetD fs "caption") (pyGetD fs "text")),
           ("Likes", pyOr (pyGetD fs "likesCount") (pyGetD fs "likes")),
           ("Comments", pyOr (pyGetD fs "commentsCount") (pyGetD fs "comments")),
           ("Posted At", pyOr (pyGetD fs "timestamp") (pyGetD fs "takenAt")),
           ("Is Video", pyGetD fs "isVideo"),
           ("Thumbnail", pyOr (pyGetD fs "displayUrl") (pyGetD fs "thumbnailUrl")),
           ("Username", pyOr (pyGetD fs "ownerUsername") (pyGetD fs "username"))] := by
  simp only [instagramRow, pyGetMethod_obj, ok_bind]

theorem instagramRow_not_obj (j : Json) (h : ∀ fs, j ≠ Json.obj fs) :
    instagramRow j = .error .attributeError := by
  cases j with
  | obj fs => exact absurd rfl (h fs)
  | null => simp [instagramRow, pyGetMethod, error_bind]
  | bool b => simp [instagramRow, pyGetMethod, error_bind]
  | num n => simp [instagramRow, pyGetMethod, error_bind]
  | str s => simp [instagramRow, pyGetMethod, error_bind]
  | arr elems => simp [instagramRow, pyGetMethod, error_bind]

theorem leadRow_keys {p : Json} {row : List (String × Json)}
    (h : leadRow p = .ok row) : rowKeys row = leadCols := by
  cases p with
  | obj fs =>
      rw [leadRow_obj] at h
      cases h1 : emailField (Json.obj fs) with
      | error e => rw [h1] at h; simp [error_bind] at h
      | ok em =>
          rw [h1, ok_bind] at h
          cases h2 : websiteField (Json.obj fs) with
          | error e => rw [h2] at h; simp [error_bind] at h
          | ok cw =>
              rw [h2, ok_bind] at h
              cases h3 : locationField (Json.obj fs) with
              | error e => rw [h3] at h; simp [error_bind] at h
              | ok loc =>
                  rw [h3, ok_bind] at h
                  injection h with h4
                  subst h4
                  simp [rowKeys, leadCols]
  | null => simp [leadRow, pyGetMethod, error_bind] at h
  | bool b => simp [leadRow, pyGetMethod, error_bind] at h
  | num n => simp [leadRow, pyGetMethod, error_bind] at h
  | str s => simp [leadRow, pyGetMethod, error_bind] at h
  | arr elems => simp [leadRow, pyGetMethod, error_bind] at h

theorem instagramRow_keys {p : Json} {row : List (String × Json)}
    (h : instagramRow p = .ok row) : rowKeys row = instaCols := by
  cases p with
  | obj fs =>
      rw [instagramRow_obj] at h
      injection h with h4
      subst h4
      simp [rowKeys, instaCols]
  | null => simp [instagramRow, pyGetMethod, error_bind] at h
  | bool b => simp [instagramRow, pyGetMethod, error_bind] at h
  | num n => simp [instagramRow, pyGetMethod, error_bind] at h
  | str s => simp [instagramRow, pyGetMethod, error_bind] at h
  | arr elems => simp [instagramRow, pyGetMethod, error_bind] at h

theorem convert_lead_cons (p : Json) (rest : List Json) :
    convert_to_dataframe (p :: rest) =
      leadRow p >>= fun r =>
      convert_to_dataframe rest >>= fun rs => Except.ok (r :: rs) := rfl

theorem convert_insta_cons (p : Json) (rest : List Json) :
    convert_instagram_to_dataframe (p :: rest) =
      instagramRow p >>= fun r =>
      convert_instagram_to_dataframe rest >>= fun rs => Except.ok (r :: rs) := rfl

theorem convert_lead_spec :
    ∀ (records : List Json) (rows : List (List (String × Json))),
      convert_to_dataframe records = .ok rows →
      rows.length = records.length ∧
      (∀ (i : Nat) (p0 : Json), records.get? i = some p0 →
        ∃ r0, rows.get? i = some r0 ∧ leadRow p0 = .ok r0) ∧
      (∀ r ∈ rows, ∃ p0, leadRow p0 = .ok r) := by
  intro records
  induction records with
  | nil =>
      intro rows h
      simp only [convert_to_dataframe, Except.ok.injEq] at h
      subst h
      refine ⟨rfl, ?_, ?_⟩
      · intro i p0 hp; simp at hp
      · intro r hr; simp at hr
  | cons p rest ih =>
      intro rows h
      rw [convert_lead_cons] at h
      cases h1 : leadRow p with
      | error e => rw [h1, error_bind] at h; simp at h
      | ok r =>
          rw [h1, ok_bind] at h
          cases h2 : convert_to_dataframe rest with
          | error e => rw [h2, error_bind] at h; simp at h
          | ok rs =>
              rw [h2, ok_bind] at h
              injection h with h3
              subst h3
              obtain ⟨hlen, hidx, hmem⟩ := ih rs h2
              refine ⟨by simp [hlen], ?_, ?_⟩
              · intro i p0 hp
                cases i with
                | zero =>
                    simp only [List.get?_cons_zero, Option.some_inj] at hp
                    subst hp
                    exact ⟨r, by simp, h1⟩
                | succ n =>
                    simp only [List.get?_cons_succ] at hp ⊢
                    exact hidx n p0 hp
              · intro r' hr'
                rcases List.mem_cons.mp hr' with rfl | hr'
                · exact ⟨p, h1⟩
                · exact hmem r' hr'

theorem convert_insta_spec :
    ∀ (records : List Json) (rows : List (List (String × Json))),
      convert_instagram_to_dataframe records = .ok rows →
      rows.length = records.length ∧
      (∀ (i : Nat) (p0 : Json), records.get? i = some p0 →
        ∃ r0, rows.get? i = some r0 ∧ instagramRow p0 = .ok r0) ∧
      (∀ r ∈ rows, ∃ p0, instagramRow p0 = .ok r) := by
  intro records
  induction records with
  | nil =>
      intro rows h
      simp only [convert_instagram_to_dataframe, Except.ok.injEq] at h
      subst h
      refine ⟨rfl, ?_, ?_⟩
      · intro i p0 hp; simp at hp
      · intro r hr; simp at hr
  | cons p rest ih =>
      intro rows h
      rw [convert_insta_cons] at h
      cases h1 : instagramRow p with
      | error e => rw [h1, error_bind] at h; simp at h
      | ok r =>
          rw [h1, ok_bind] at h
          cases h2 : convert_instagram_to_dataframe rest with
          | error e => rw [h2, error_bind] at h; simp at h
          | ok rs =>
              rw [h2, ok_bind] at h
              injection h with h3
              subst h3
              obtain ⟨hlen, hidx, hmem⟩ := ih rs h2
              refine ⟨by simp [hlen], ?_, ?_⟩
              · intro i p0 hp
                cases i with
                | zero =>
                    simp only [List.get?_cons_zero, Option.some_inj] at hp
                    subst hp
                    exact ⟨r, by simp, h1⟩
                | succ n =>
                    simp only [List.get?_cons_succ] at hp ⊢
                    exact hidx n p0 hp
              · intro r' hr'
                rcases List.mem_cons.mp hr' with rfl | hr'
                · exact ⟨p, h1⟩
                · exact hmem r' hr'

theorem dfColumns_fixed (cols : List String) :
    ∀ rest : List (List (String × Json)), (∀ r ∈ rest, rowKeys r = cols) →
      List.foldl (fun acc row => acc ++ (rowKeys row).filter (fun k => !acc.contains k))
        cols rest = cols := by
  intro rest
  induction rest with
  | nil => intro _; rfl
  | cons r rs ih =>
      intro h
      have hr : rowKeys r = cols := h r (by simp)
      have hstep : cols ++ (rowKeys r).filter (fun k => !cols.contains k) = cols := by
        rw [hr]; simp
      simp only [List.foldl_cons, hstep]
      exact ih (fun x hx => h x (by simp [hx]))

theorem dfColumns_uniform (rows : List (List (String × Json))) (cols : List String)
    (hne : rows ≠ []) (h : ∀ r ∈ rows, rowKeys r = cols) :
    dfColumns rows = cols := by
  cases rows with
  | nil => exact absurd rfl hne
  | cons r rs =>
      have hr : rowKeys r = cols := h r (by simp)
      unfold dfColumns
      have hfirst : ([] : List String) ++ (rowKeys r).filter (fun k => !(([] : List String).contains k)) = cols := by
        rw [hr]; simp
      simp only [List.foldl_cons, hfirst]
      exact dfColumns_fixed cols rs (fun x hx => h x (by simp [hx]))

theorem cells_align :
    ∀ (row : List (String × Json)) (cols : List String),
      rowKeys row = cols → cols.Nodup →
      cols.map (cellOf row) = row.map (fun kv => cellStr kv.2) := by
  intro row
  induction row with
  | nil =>
      intro cols h _
      rw [← h]
      rfl
  | cons kv rest ih =>
      intro cols h hnd
      subst h
      have hnd2 : (kv.1 :: List.map Prod.fst rest).Nodup := hnd
      obtain ⟨hhead, htail⟩ := List.nodup_cons.mp hnd2
      have hk : cellOf (kv :: rest) kv.1 = cellStr kv.2 := by
        simp [cellOf, rowGet]
      have hcongr : List.map (cellOf (kv :: rest)) (List.map Prod.fst rest)
          = List.map (cellOf rest) (List.map Prod.fst rest) := by
        apply List.map_congr_left
        intro c hc
        have hne : ¬ kv.1 = c := by
          intro heq; exact hhead (heq ▸ hc)
        simp [cellOf, rowGet, hne]
      simp only [rowKeys, List.map_cons]
      rw [hk, hcongr]
      have hih := ih (List.map Prod.fst rest) rfl htail
      simp only [rowKeys] at hih
      rw [hih]

theorem parse_toCsv_uniform (rows : List (List (String × Json))) (cols : List String)
    (hne : rows ≠ []) (hk : ∀ r ∈ rows, rowKeys r = cols)
    (hnd : cols.Nodup) (hcne : cols ≠ []) :
    parseCsv (toCsv rows)
      = some (cols :: rows.map (fun r => r.map (fun kv => cellStr kv.2))) := by
  have htcsv : toCsv rows
      = renderCsv (dfColumns rows :: rows.map (fun r => (dfColumns rows).map (cellOf r))) := rfl
  rw [htcsv, dfColumns_uniform rows cols hne hk]
  have hmap : rows.map (fun r => cols.map (cellOf r))
      = rows.map (fun r => r.map (fun kv => cellStr kv.2)) :=
    List.map_congr_left (fun r hr => cells_align r cols (hk r hr) hnd)
  rw [hmap]
  apply parseCsv_renderCsv
  intro r hr
  rcases List.mem_cons.mp hr with rfl | hr
  · exact hcne
  · obtain ⟨row, hrow, rfl⟩ := List.mem_map.mp hr
    have : row ≠ [] := by
      intro hempty
      apply hcne
      rw [← hk row hrow, hempty]
      rfl
    simp [this]

theorem emailField_absent (fs : List (String × Json))
    (h : lookupLast fs "emails" = none) :
    emailField (Json.obj fs) = .ok Json.null := by
  have hget : pyGetMethod (Json.obj fs) "emails" = .ok Json.null := by
    show Except.ok ((lookupLast fs "emails").getD Json.null) = Except.ok Json.null
    rw [h]
    rfl
  unfold emailField
  rw [hget, ok_bind]
  rfl

theorem websiteField_absent (fs : List (String × Json))
    (h : lookupLast fs "companyWebsites" = none) :
    websiteField (Json.obj fs) = .ok Json.null := by
  have hget : pyGetMethod (Json.obj fs) "companyWebsites" = .ok Json.null := by
    show Except.ok ((lookupLast fs "companyWebsites").getD Json.null) = Except.ok Json.null
    rw [h]
    rfl
  unfold websiteField
  rw [hget, ok_bind]
  rfl

theorem locationField_absent (fs : List (String × Json))
    (h : lookupLast fs "location" = none) :
    locationField (Json.obj fs) = .ok Json.null := by
  have hget : pyGetMethod (Json.obj fs) "location" = .ok Json.null := by
    show Except.ok ((lookupLast fs "location").getD Json.null) = Except.ok Json.null
    rw [h]
    rfl
  unfold locationField
  rw [hget, ok_bind]
  rfl

theorem emailField_falsy (fs : List (String × Json))
    (h : lookupLast fs "emails" = some Json.null ∨
         lookupLast fs "emails" = some (Json.arr [])) :
    emailField (Json.obj fs) = .ok Json.null := by
  rcases h with h | h
  · have hget : pyGetMethod (Json.obj fs) "emails" = .ok Json.null := by
      show Except.ok ((lookupLast fs "emails").getD Json.null) = Except.ok Json.null
      rw [h]
      rfl
    unfold emailField
    rw [hget, ok_bind]
    rfl
  · have hget : pyGetMethod (Json.obj fs) "emails" = .ok (Json.arr []) := by
      show Except.ok ((lookupLast fs "emails").getD Json.null) = Except.ok (Json.arr [])
      rw [h]
      rfl
    unfold emailField
    rw [hget, ok_bind]
    rfl

theorem websiteField_falsy (fs : List (String × Json))
    (h : lookupLast fs "companyWebsites" = some Json.null ∨
         lookupLast fs "companyWebsites" = some (Json.arr [])) :
    websiteField (Json.obj fs) = .ok Json.null := by
  rcases h with h | h
  · have hget : pyGetMethod (Json.obj fs) "companyWebsites" = .ok Json.null := by
      show Except.ok ((lookupLast fs "companyWebsites").getD Json.null) = Except.ok Json.null
      rw [h]
      rfl
    unfold websiteField
    rw [hget, ok_bind]
    rfl
  · have hget : pyGetMethod (Json.obj fs) "companyWebsites" = .ok (Json.arr []) := by
      show Except.ok ((lookupLast fs "companyWebsites").getD Json.null) = Except.ok (Json.arr [])
      rw [h]
      rfl
    unfold websiteField
    rw [hget, ok_bind]
    rfl

theorem leadRow_nested_absent (fs : List (String × Json))
    (h1 : lookupLast fs "emails" = none)
    (h2 : lookupLast fs "companyWebsites" = none)
    (h3 : lookupLast fs "location" = none) :
    leadRow (Json.obj fs) =
      .ok [("Profile URL", pyGetD fs "linkedinUrl"),
        ("First Name", pyGetD fs "firstName"),
        ("Last Name", pyGetD fs "lastName"),
        ("Email", Json.null),
        ("Headline", pyGetD fs "headline"),
        ("Company Website", Json.null),
        ("Location", Json.null),
        ("Followers", pyGetD fs "followerCount"),
        ("Connections Count", pyGetD fs "connectionsCount")] := by
  rw [leadRow_obj, emailField_absent fs h1, ok_bind, websiteField_absent fs h2,
    ok_bind, locationField_absent fs h3, ok_bind]

theorem pySubscrKey_obj (fs : List (String × Json)) (k : String) :
    pySubscrKey (Json.obj fs) k =
      (match lookupLast fs k with
       | some v => Except.ok v
       | none => Except.error (PyErr.keyError k)) := rfl

theorem buildBody_ok (fs : List (String × Json)) (jt mi sq : Json)
    (h1 : lookupLast fs "jobTitles" = some jt)
    (h2 : lookupLast fs "maxResults" = some mi)
    (h3 : lookupLast fs "search" = some sq) :
    buildBody (Json.obj fs) =
      .ok [("currentJobTitles", jt),
           ("maxItems", mi),
           ("profileScraperMode", Json.str "Full + email search"),
           ("recentlyChangedJobs", Json.bool false),
           ("searchQuery", sq),
           ("startPage", Json.num 1)] := by
  have e1 : pySubscrKey (Json.obj fs) "jobTitles" = .ok jt := by
    rw [pySubscrKey_obj, h1]
  have e2 : pySubscrKey (Json.obj fs) "maxResults" = .ok mi := by
    rw [pySubscrKey_obj, h2]
  have e3 : pySubscrKey (Json.obj fs) "search" = .ok sq := by
    rw [pySubscrKey_obj, h3]
  unfold buildBody
  rw [e1, ok_bind, e2, ok_bind, e3, ok_bind]

/-! ## The claims -/

/-- C1 (corrected at this input): the source accepts syntactically valid
JSON that lacks all five required query fields. The empty JSON object
parses and is returned, with `hasRequiredKeys` false, although the claim
requires a failure with `MalformedQueryError` here. -/
theorem c1_counterexample :
    generate_payload "\x7b\x7d" = .ok (Json.obj []) ∧
    hasRequiredKeys (Json.obj []) = false :=
  ⟨rfl, rfl⟩

/-- C1 (amended): `generate_payload` succeeds exactly when the trimmed
response text parses as JSON, returning the parsed value unchanged, and
fails with the JSON decode error otherwise; the five required fields are
not checked anywhere in the synthesizer. -/
theorem c1_parse_iff (content : String) :
    (∀ j : Json, generate_payload content = .ok j ↔ Json.parse (pyStrip content) = some j) ∧
    (generate_payload content = .error .malformedQuery ↔ Json.parse (pyStrip content) = none) := by
  cases hp : Json.parse (pyStrip content) with
  | none => simp [generate_payload, hp]
  | some v => simp [generate_payload, hp]

/-- C2 (corrected at this input): the fallback chain skips falsy values,
not only missing or null ones. A Posts record with `likesCount = 0` and
`likes = 5` normalizes Likes to `5`, although `0` is the first present
non-null value in the chain. -/
theorem c2_counterexample :
    instagramRow (Json.obj [("likesCount", Json.num 0), ("likes", Json.num 5)]) =
      .ok [("Post URL", Json.null), ("Caption", Json.null),
           ("Likes", Json.num 5), ("Comments", Json.null),
           ("Posted At", Json.null), ("Is Video", Json.null),
           ("Thumbnail", Json.null), ("Username", Json.null)] ∧
    lookupLast [("likesCount", Json.num 0), ("likes", Json.num 5)] "likesCount"
      = some (Json.num 0) ∧
    Json.num 0 ≠ Json.null ∧
    Json.num 5 ≠ Json.num 0 := by
  refine ⟨rfl, rfl, ?_, ?_⟩
  · intro hh; exact Json.noConfusion hh
  · intro hh
    injection hh with h2
    exact absurd h2 (by decide)

/-- C2 (amended): every fallback-chain field holds the first Python-truthy
value of its chain (falsy values - null, False, 0, empty string or list -
are skipped, the last chain value standing in when none is truthy); in
particular a record with only `url` set to a truthy value normalizes
Post URL to that value. -/
theorem c2_fallback_truthy (fs : List (String × Json)) :
    ∃ row, instagramRow (Json.obj fs) = .ok row ∧
      rowGet row "Post URL"
        = some (firstTruthy [pyGetD fs "postUrl", pyGetD fs "url", pyGetD fs "permalink"]) ∧
      rowGet row "Caption" = some (firstTruthy [pyGetD fs "caption", pyGetD fs "text"]) ∧
      rowGet row "Likes" = some (firstTruthy [pyGetD fs "likesCount", pyGetD fs "likes"]) ∧
      rowGet row "Comments"
        = some (firstTruthy [pyGetD fs "commentsCount", pyGetD fs "comments"]) ∧
      rowGet row "Posted At" = some (firstTruthy [pyGetD fs "timestamp", pyGetD fs "takenAt"]) ∧
      rowGet row "Is Video" = some (pyGetD fs "isVideo") ∧
      rowGet row "Thumbnail"
        = some (firstTruthy [pyGetD fs "displayUrl", pyGetD fs "thumbnailUrl"]) ∧
      rowGet row "Username" = some (firstTruthy [pyGetD fs "ownerUsername", pyGetD fs "username"]) ∧
      (lookupLast fs "postUrl" = none → ∀ v, lookupLast fs "url" = some v →
        v.truthy = true → rowGet row "Post URL" = some v) := by
  refine ⟨_, instagramRow_obj fs, ?_, ?_, ?_, ?_, ?_, ?_, ?_, ?_, ?_⟩
  · rw [← pyOr3_firstTruthy]; rfl
  · rw [← pyOr2_firstTruthy]; rfl
  · rw [← pyOr2_firstTruthy]; rfl
  · rw [← pyOr2_firstTruthy]; rfl
  · rw [← pyOr2_firstTruthy]; rfl
  · rfl
  · rw [← pyOr2_firstTruthy]; rfl
  · rw [← pyOr2_firstTruthy]; rfl
  · intro hpu v hurl htr
    have e1 : pyGetD fs "postUrl" = Json.null := by
      unfold pyGetD; rw [hpu]; rfl
    have e2 : pyGetD fs "url" = v := by
      unfold pyGetD; rw [hurl]; rfl
    have hr : rowGet [("Post URL", pyOr (pyOr (pyGetD fs "postUrl") (pyGetD fs "url")) (pyGetD fs "permalink")),
           ("Caption", pyOr (pyGetD fs "caption") (pyGetD fs "text")),
           ("Likes", pyOr (pyGetD fs "likesCount") (pyGetD fs "likes")),
           ("Comments", pyOr (pyGetD fs "commentsCount") (pyGetD fs "comments")),
           ("Posted At", pyOr (pyGetD fs "timestamp") (pyGetD fs "takenAt")),
           ("Is Video", pyGetD fs "isVideo"),
           ("Thumbnail", pyOr (pyGetD fs "displayUrl") (pyGetD fs "thumbnailUrl")),
           ("Username", pyOr (pyGetD fs "ownerUsername") (pyGetD fs "username"))] "Post URL"
        = some (pyOr (pyOr (pyGetD fs "postUrl") (pyGetD fs "url")) (pyGetD fs "permalink")) := rfl
    rw [hr, e1, e2]
    have hnull : Json.null.truthy = false := rfl
    simp [pyOr, hnull, htr]

/-- C2 witness: a record with only `url` set (to a non-empty string)
normalizes Post URL to that value. -/
theorem c2_witness :
    ∃ row, instagramRow (Json.obj [("url", Json.str "u")]) = .ok row ∧
      rowGet row "Post URL" = some (Json.str "u") := by
  obtain ⟨row, hrow, _, _, _, _, _, _, _, _, hlast⟩ :=
    c2_fallback_truthy [("url", Json.str "u")]
  exact ⟨row, hrow, hlast rfl (Json.str "u") rfl rfl⟩

/-- C3: both normalizers produce exactly one output row per input record
-- output length equals input length -- and the row at every index is
the normalization of the record at the same index, so input order is
preserved; the embedded functions are pure by construction. -/
theorem c3_normalize_length_order :
    (∀ (records : List Json) (rows : List (List (String × Json))),
      convert_to_dataframe records = .ok rows →
      rows.length = records.length ∧
      (∀ (i : Nat) (p0 : Json), records.get? i = some p0 →
        ∃ r0, rows.get? i = some r0 ∧ leadRow p0 = .ok r0)) ∧
    (∀ (records : List Json) (rows : List (List (String × Json))),
      convert_instagram_to_dataframe records = .ok rows →
      rows.length = records.length ∧
      (∀ (i : Nat) (p0 : Json), records.get? i = some p0 →
        ∃ r0, rows.get? i = some r0 ∧ instagramRow p0 = .ok r0)) := by
  constructor
  · intro records rows h
    exact ⟨(convert_lead_spec records rows h).1, (convert_lead_spec records rows h).2.1⟩
  · intro records rows h
    exact ⟨(convert_insta_spec records rows h).1, (convert_insta_spec records rows h).2.1⟩

/-- C3 witness: one empty Leads record yields exactly one row. -/
theorem c3_witness :
    ([nullLeadRow] : List (List (String × Json))).length
      = ([Json.obj []] : List Json).length :=
  (c3_normalize_length_order.1 [Json.obj []] [nullLeadRow] rfl).1

/-- C4 (corrected at this input): a Leads record that is missing the
`emails` key (and the `location` key) can still raise: here
`companyWebsites` is bound to the number `5`, and normalization raises
`TypeError` at `(5)[0]`, although the claim promises that normalization
of a record missing a nested field never raises. -/
theorem c4_counterexample :
    lookupLast [("companyWebsites", Json.num 5)] "emails" = none ∧
    lookupLast [("companyWebsites", Json.num 5)] "location" = none ∧
    leadRow (Json.obj [("companyWebsites", Json.num 5)]) = .error PyErr.typeError :=
  ⟨rfl, rfl, rfl⟩

/-- C4 (amended): for every Leads record, each of the three nested
fields whose key is missing resolves to `None` without raising, and a
record missing all three normalizes without error; an error can only
come from one of these keys being present with an ill-shaped value. -/
theorem c4_missing_nested (fs : List (String × Json)) :
    (lookupLast fs "emails" = none → emailField (Json.obj fs) = .ok Json.null) ∧
    (lookupLast fs "companyWebsites" = none → websiteField (Json.obj fs) = .ok Json.null) ∧
    (lookupLast fs "location" = none → locationField (Json.obj fs) = .ok Json.null) ∧
    (lookupLast fs "emails" = none → lookupLast fs "companyWebsites" = none →
      lookupLast fs "location" = none →
      leadRow (Json.obj fs) =
        .ok [("Profile URL", pyGetD fs "linkedinUrl"),
          ("First Name", pyGetD fs "firstName"),
          ("Last Name", pyGetD fs "lastName"),
          ("Email", Json.null),
          ("Headline", pyGetD fs "headline"),
          ("Company Website", Json.null),
          ("Location", Json.null),
          ("Followers", pyGetD fs "followerCount"),
          ("Connections Count", pyGetD fs "connectionsCount")]) :=
  ⟨emailField_absent fs, websiteField_absent fs, locationField_absent fs,
   leadRow_nested_absent fs⟩

/-- C4 witness: the empty record normalizes without error, with `None`
in the Email, Company Website and Location columns. -/
theorem c4_witness :
    leadRow (Json.obj []) =
      .ok [("Profile URL", pyGetD [] "linkedinUrl"),
        ("First Name", pyGetD [] "firstName"),
        ("Last Name", pyGetD [] "lastName"),
        ("Email", Json.null),
        ("Headline", pyGetD [] "headline"),
        ("Company Website", Json.null),
        ("Location", Json.null),
        ("Followers", pyGetD [] "followerCount"),
        ("Connections Count", pyGetD [] "connectionsCount")] :=
  (c4_missing_nested []).2.2.2 rfl rfl rfl

/-- C6: every produced row carries exactly the declared closed column
set, in the fixed source order -- nine named columns for Leads, eight
for Posts -- independently of which source fields were present. -/
theorem c6_fixed_columns :
    (∀ (p : Json) (row : List (String × Json)),
      leadRow p = .ok row → rowKeys row = leadCols) ∧
    (∀ (p : Json) (row : List (String × Json)),
      instagramRow p = .ok row → rowKeys row = instaCols) :=
  ⟨fun _ _ h => leadRow_keys h, fun _ _ h => instagramRow_keys h⟩

/-- C6 witness: the row of an empty Leads record has exactly the nine
fixed columns. -/
theorem c6_witness : rowKeys nullLeadRow = leadCols :=
  c6_fixed_columns.1 (Json.obj []) nullLeadRow rfl

/-- C5 (corrected at this input): exporting an empty record list yields a
CSV consisting of one empty line: the DataFrame built from zero
dictionaries has no columns, so the header row is not the fixed column
list of either kind, although the claim requires that header for every
record list. (The row count conjunct does hold here: one parsed line
minus the header is zero rows.) -/
theorem c5_counterexample :
    convert_to_dataframe [] = .ok [] ∧
    toCsv [] = "\n" ∧
    parseCsv "\n" = some [[""]] ∧
    [""] ≠ leadCols ∧ [""] ≠ instaCols :=
  ⟨rfl, rfl, rfl, by decide, by decide⟩

/-- C5 (amended): for every non-empty record list of either kind that
normalizes, parsing the exported CSV with a standard reader yields the
fixed column list of that kind as the header followed by exactly one
line per record, whose cells are the stringified row values. -/
theorem c5_roundtrip_nonempty :
    (∀ (records : List Json) (rows : List (List (String × Json))),
      records ≠ [] → convert_to_dataframe records = .ok rows →
      parseCsv (toCsv rows)
        = some (leadCols :: rows.map (fun r => r.map (fun kv => cellStr kv.2))) ∧
      rows.length = records.length) ∧
    (∀ (records : List Json) (rows : List (List (String × Json))),
      records ≠ [] → convert_instagram_to_dataframe records = .ok rows →
      parseCsv (toCsv rows)
        = some (instaCols :: rows.map (fun r => r.map (fun kv => cellStr kv.2))) ∧
      rows.length = records.length) := by
  constructor
  · intro records rows hne h
    obtain ⟨hlen, _, hmem⟩ := convert_lead_spec records rows h
    have hkeys : ∀ r ∈ rows, rowKeys r = leadCols := by
      intro r hr
      obtain ⟨p0, hp⟩ := hmem r hr
      exact leadRow_keys hp
    have hrne : rows ≠ [] := by
      intro h0
      apply hne
      rw [h0] at hlen
      have : records.length = 0 := by simpa using hlen.symm
      exact List.eq_nil_of_length_eq_zero this
    exact ⟨parse_toCsv_uniform rows leadCols hrne hkeys (by decide) (by decide), hlen⟩
  · intro records rows hne h
    obtain ⟨hlen, _, hmem⟩ := convert_insta_spec records rows h
    have hkeys : ∀ r ∈ rows, rowKeys r = instaCols := by
      intro r hr
      obtain ⟨p0, hp⟩ := hmem r hr
      exact instagramRow_keys hp
    have hrne : rows ≠ [] := by
      intro h0
      apply hne
      rw [h0] at hlen
      have : records.length = 0 := by simpa using hlen.symm
      exact List.eq_nil_of_length_eq_zero this
    exact ⟨parse_toCsv_uniform rows instaCols hrne hkeys (by decide) (by decide), hlen⟩

/-- C5 witness: one empty Leads record round-trips through the CSV
export with the fixed header and one data row. -/
theorem c5_witness :
    parseCsv (toCsv [nullLeadRow])
      = some (leadCols ::
          ([nullLeadRow] : List (List (String × Json))).map
            (fun r => r.map (fun kv => cellStr kv.2))) ∧
    ([nullLeadRow] : List (List (String × Json))).length
      = ([Json.obj []] : List Json).length :=
  c5_roundtrip_nonempty.1 [Json.obj []] [nullLeadRow] (List.cons_ne_nil _ _) rfl

/-- C7: for a payload carrying the three consumed fields, the request
body maps `jobTitles` to `currentJobTitles`, `maxResults` to `maxItems`
and `search` to `searchQuery`, and fixes the scraper mode, the
recently-changed-jobs flag and the start page. -/
theorem c7_request_body (fs : List (String × Json)) (jt mi sq : Json)
    (h1 : lookupLast fs "jobTitles" = some jt)
    (h2 : lookupLast fs "maxResults" = some mi)
    (h3 : lookupLast fs "search" = some sq) :
    buildBody (Json.obj fs) =
      .ok [("currentJobTitles", jt),
           ("maxItems", mi),
           ("profileScraperMode", Json.str "Full + email search"),
           ("recentlyChangedJobs", Json.bool false),
           ("searchQuery", sq),
           ("startPage", Json.num 1)] :=
  buildBody_ok fs jt mi sq h1 h2 h3

/-- C7 witness: the body built from the sample payload. -/
theorem c7_witness :
    buildBody samplePayload =
      .ok [("currentJobTitles", Json.arr [Json.str "Founder", Json.str "Co-Founder", Json.str "CEO"]),
           ("maxItems", Json.num 50),
           ("profileScraperMode", Json.str "Full + email search"),
           ("recentlyChangedJobs", Json.bool false),
           ("searchQuery", Json.str "SaaS founders"),
           ("startPage", Json.num 1)] :=
  c7_request_body
    [("search", Json.str "SaaS founders"),
     ("location", Json.str "United Kingdom"),
     ("maxResults", Json.num 50),
     ("jobTitles", Json.arr [Json.str "Founder", Json.str "Co-Founder", Json.str "CEO"]),
     ("industry", Json.str "SaaS")]
    (Json.arr [Json.str "Founder", Json.str "Co-Founder", Json.str "CEO"])
    (Json.num 50) (Json.str "SaaS founders") rfl rfl rfl

/-- C8 (corrected at this input): `raise_for_status` raises only for
status codes in [400, 600). Status 304 is not a 2xx success, yet the
fetcher does not raise and returns the parsed body, contradicting the
claim that it raises exactly on non-2xx statuses. -/
theorem c8_counterexample :
    run_linkedin_scraper samplePayload ⟨304, "[]"⟩ = .ok (Json.arr []) ∧
    ¬(200 ≤ 304 ∧ 304 < 300) :=
  ⟨rfl, by decide⟩

/-- C8 (amended): for a well-formed payload, the fetcher raises
`UpstreamRequestError` exactly for status codes in [400, 600) (client
and server errors), and otherwise returns the parsed JSON body
unchanged. -/
theorem c8_status_handling (fs : List (String × Json)) (jt mi sq : Json)
    (status : Nat) (body : String)
    (h1 : lookupLast fs "jobTitles" = some jt)
    (h2 : lookupLast fs "maxResults" = some mi)
    (h3 : lookupLast fs "search" = some sq) :
    (400 ≤ status ∧ status < 600 →
      run_linkedin_scraper (Json.obj fs) ⟨status, body⟩ = .error (.httpError status)) ∧
    (¬(400 ≤ status ∧ status < 600) →
      run_linkedin_scraper (Json.obj fs) ⟨status, body⟩ = responseJson body) ∧
    (∀ j : Json, ¬(400 ≤ status ∧ status < 600) → Json.parse body = some j →
      run_linkedin_scraper (Json.obj fs) ⟨status, body⟩ = .ok j) := by
  have hb := buildBody_ok fs jt mi sq h1 h2 h3
  have hrun : run_linkedin_scraper (Json.obj fs) ⟨status, body⟩
      = (raiseForStatus status >>= fun _ => responseJson body) := by
    unfold run_linkedin_scraper
    rw [hb, ok_bind]
  refine ⟨?_, ?_, ?_⟩
  · intro hin
    rw [hrun]
    unfold raiseForStatus
    rw [if_pos hin, error_bind]
  · intro hout
    rw [hrun]
    unfold raiseForStatus
    rw [if_neg hout, ok_bind]
  · intro j hout hj
    rw [hrun]
    unfold raiseForStatus
    rw [if_neg hout, ok_bind]
    unfold responseJson
    rw [hj]

/-- C8 witness: a 200 response with body `[]` is returned parsed. -/
theorem c8_witness :
    run_linkedin_scraper samplePayload ⟨200, "[]"⟩ = .ok (Json.arr []) :=
  (c8_status_handling
    [("search", Json.str "SaaS founders"),
     ("location", Json.str "United Kingdom"),
     ("maxResults", Json.num 50),
     ("jobTitles", Json.arr [Json.str "Founder", Json.str "Co-Founder", Json.str "CEO"]),
     ("industry", Json.str "SaaS")]
    (Json.arr [Json.str "Founder", Json.str "Co-Founder", Json.str "CEO"])
    (Json.num 50) (Json.str "SaaS founders") 200 "[]" rfl rfl rfl).2.2
    (Json.arr []) (by decide) rfl

/-- C9: a Leads record whose `emails` or `companyWebsites` key is
present but bound to null or to the empty list normalizes that field to
`None` without raising: the falsy value is replaced by the singleton
dummy list before indexing. -/
theorem c9_present_null_or_empty (fs : List (String × Json)) :
    ((lookupLast fs "emails" = some Json.null ∨
      lookupLast fs "emails" = some (Json.arr [])) →
      emailField (Json.obj fs) = .ok Json.null) ∧
    ((lookupLast fs "companyWebsites" = some Json.null ∨
      lookupLast fs "companyWebsites" = some (Json.arr [])) →
      websiteField (Json.obj fs) = .ok Json.null) :=
  ⟨emailField_falsy fs, websiteField_falsy fs⟩

/-- C9 witness: `emails = null` and `companyWebsites = []` both resolve
to `None`. -/
theorem c9_witness :
    emailField (Json.obj [("emails", Json.null), ("companyWebsites", Json.arr [])])
      = .ok Json.null ∧
    websiteField (Json.obj [("emails", Json.null), ("companyWebsites", Json.arr [])])
      = .ok Json.null :=
  ⟨(c9_present_null_or_empty _).1 (Or.inl rfl),
   (c9_present_null_or_empty _).2 (Or.inr rfl)⟩

/-- C10: a payload missing any of the keys read by the request-body
literal fails with that `KeyError` during body construction, and the
fetcher returns that same error for every possible HTTP response --
so the failure happens before any request is issued. -/
theorem c10_missing_key_rejected_in_fetcher (fs : List (String × Json))
    (h : lookupLast fs "jobTitles" = none ∨ lookupLast fs "maxResults" = none ∨
         lookupLast fs "search" = none) :
    buildBody (Json.obj fs) = .error (.keyError (firstMissingKey fs)) ∧
    ∀ response : HttpResponse,
      run_linkedin_scraper (Json.obj fs) response
        = .error (.keyError (firstMissingKey fs)) := by
  have hb : buildBody (Json.obj fs) = .error (.keyError (firstMissingKey fs)) := by
    cases h1 : lookupLast fs "jobTitles" with
    | none =>
        have hfmk : firstMissingKey fs = "jobTitles" := by
          unfold firstMissingKey
          rw [h1]
          rfl
        have e1 : pySubscrKey (Json.obj fs) "jobTitles"
            = .error (.keyError "jobTitles") := by
          rw [pySubscrKey_obj, h1]
        unfold buildBody
        rw [e1, error_bind, hfmk]
    | some v1 =>
        cases h2 : lookupLast fs "maxResults" with
        | none =>
            have hfmk : firstMissingKey fs = "maxResults" := by
              unfold firstMissingKey
              rw [h1, h2]
              rfl
            have e1 : pySubscrKey (Json.obj fs) "jobTitles" = .ok v1 := by
              rw [pySubscrKey_obj, h1]
            have e2 : pySubscrKey (Json.obj fs) "maxResults"
                = .error (.keyError "maxResults") := by
              rw [pySubscrKey_obj, h2]
            unfold buildBody
            rw [e1, ok_bind, e2, error_bind, hfmk]
        | some v2 =>
            cases h3 : lookupLast fs "search" with
            | none =>
                have hfmk : firstMissingKey fs = "search" := by
                  unfold firstMissingKey
                  rw [h1, h2]
                  rfl
                have e1 : pySubscrKey (Json.obj fs) "jobTitles" = .ok v1 := by
                  rw [pySubscrKey_obj, h1]
                have e2 : pySubscrKey (Json.obj fs) "maxResults" = .ok v2 := by
                  rw [pySubscrKey_obj, h2]
                have e3 : pySubscrKey (Json.obj fs) "search"
                    = .error (.keyError "search") := by
                  rw [pySubscrKey_obj, h3]
                unfold buildBody
                rw [e1, ok_bind, e2, ok_bind, e3, error_bind, hfmk]
            | some v3 =>
                exfalso
                rcases h with h | h | h
                · rw [h] at h1; exact Option.noConfusion h1
                · rw [h] at h2; exact Option.noConfusion h2
                · rw [h] at h3; exact Option.noConfusion h3
  refine ⟨hb, ?_⟩
  intro response
  unfold run_linkedin_scraper
  rw [hb, error_bind]

/-- C10 witness: the empty payload fails with the `jobTitles` key error
for an arbitrary fixed response. -/
theorem c10_witness :
    buildBody (Json.obj []) = .error (.keyError (firstMissingKey [])) ∧
    run_linkedin_scraper (Json.obj []) ⟨200, "[]"⟩
      = .error (.keyError (firstMissingKey [])) :=
  ⟨(c10_missing_key_rejected_in_fetcher [] (Or.inl rfl)).1,
   (c10_missing_key_rejected_in_fetcher [] (Or.inl rfl)).2 ⟨200, "[]"⟩⟩
